import Mathlib

/-!
Shallow embedding of the `jot` note manager (`src/cmd.rs`, with the
configuration record from `src/cli.rs`).  External effects — environment
lookups, child-process execution, the filesystem and the process working
directory — are passed in explicitly through a `World` record; each
workflow returns its `Except` result together with the trace of child
invocations it performed and any state it changed.
-/

namespace Jot

/-- A filesystem path: an absoluteness flag plus the list of components,
mirroring Rust `PathBuf` at the component level (`..` components are kept
literally, as Rust's component iterator does). -/
structure JPath where
  absolute : Bool
  comps : List String
  deriving DecidableEq, Repr

/-- Rust `Path::join`: an absolute right operand replaces the left one,
otherwise the components are concatenated. -/
def JPath.join (p q : JPath) : JPath :=
  if q.absolute then q else ⟨p.absolute, p.comps ++ q.comps⟩

/-- Rust `Path::starts_with`: componentwise prefix test (the root component
is represented by the `absolute` flag, which must agree). -/
def JPath.startsWith (p base : JPath) : Bool :=
  p.absolute == base.absolute && base.comps.isPrefixOf p.comps

/-- One step of lexical path normalization: `.` is dropped and `..` pops the
previously accumulated component (at the root, `..` stays at the root). -/
def normStep (absolute : Bool) (stack : List String) (c : String) : List String :=
  if c = "." then stack
  else if c = ".." then
    match stack with
    | [] => if absolute then [] else [".."]
    | top :: rest => if top = ".." then c :: top :: rest else rest
  else c :: stack

/-- Lexical normalization of a path: resolve `.` and `..` components. -/
def JPath.normalize (p : JPath) : JPath :=
  ⟨p.absolute, (p.comps.foldl (normStep p.absolute) []).reverse⟩

/-- Semantic containment: after resolving `.` and `..`, `p` is a descendant
of (or equal to) `base`. -/
def JPath.isUnder (p base : JPath) : Bool :=
  p.normalize.startsWith base.normalize

/-- Rendering of a path as the string Rust would display. -/
def JPath.display (p : JPath) : String :=
  (if p.absolute then "/" else "") ++ String.intercalate "/" p.comps

/-- Split a character list at `/` separators. -/
def splitSlash : List Char → List Char → List String
  | [], cur => [⟨cur.reverse⟩]
  | c :: rest, cur =>
    if c = '/' then (⟨cur.reverse⟩ : String) :: splitSlash rest []
    else splitSlash rest (c :: cur)

/-- Rust `Path::new` on a string produced by a finder program. -/
def parsePath (s : String) : JPath :=
  ⟨(match s.data with | '/' :: _ => true | _ => false),
    (splitSlash s.data []).filter (fun c => c ≠ "")⟩

/-- True when no component is `.` or `..`, so lexical normalization is the
identity. -/
def cleanComps (l : List String) : Bool :=
  l.all (fun c => !(c == ".") && !(c == ".."))

/-- Stdio policy of one standard stream of a child command: left at Rust's
default, or explicitly inherited / piped. -/
inductive Stdio where
  | unset
  | inherit
  | piped
  deriving DecidableEq, Repr

/-- Rust `std::process::Command`: program, ordered argument list, and the
configured stdio policies. -/
structure Cmd where
  program : String
  args : List String
  stdinPolicy : Stdio
  stdoutPolicy : Stdio
  stderrPolicy : Stdio
  deriving DecidableEq, Repr

def Cmd.new (program : String) : Cmd :=
  ⟨program, [], .unset, .unset, .unset⟩

def Cmd.arg (c : Cmd) (a : String) : Cmd :=
  { c with args := c.args ++ [a] }

/-- Outcome of one child process run (`Command::output()`), restricted to
runs whose captured streams decode as UTF-8: the stdout and stderr texts and
the exit code (`none` when the child was killed by a signal). -/
structure ChildResult where
  stdout : String
  stderr : String
  exitCode : Option Int
  deriving DecidableEq, Repr

/-- One entry of a workflow's invocation trace: the diagnostic label passed
to `exec_cmd` plus the command as configured at the call. -/
structure Invocation where
  label : String
  cmd : Cmd
  deriving DecidableEq, Repr

/-- `"{program} {args joined by spaces}"`, as built at the top of
`exec_cmd`. -/
def invocationString (cmd : Cmd) : String :=
  cmd.program ++ " " ++ String.intercalate " " cmd.args

/-- The stderr text used in diagnostics: the captured text, or the fixed
placeholder when stderr was not captured. -/
def stderrSnapshot (captured : Bool) (stderr : String) : String :=
  if captured then stderr else "<jot: stderr not captured>"

/-- Rust `str::trim`: drop whitespace from both ends. -/
def strTrim (s : String) : String :=
  ⟨((s.data.dropWhile Char.isWhitespace).reverse.dropWhile Char.isWhitespace).reverse⟩

def natStr (n : Nat) : String :=
  ⟨Nat.toDigits 10 n⟩

def intStr (i : Int) : String :=
  if i < 0 then "-" ++ natStr i.natAbs else natStr i.natAbs

/-- `exit_code.map_or("N/A", to_string)`. -/
def exitCodeStr (code : Option Int) : String :=
  match code with
  | none => "N/A"
  | some c => intStr c

/-- The non-zero-exit diagnostic built by `exec_cmd`'s `bail!`. -/
def diagnostic (label invocation : String) (code : Option Int)
    (stdout stderr : String) : String :=
  label ++ " (`" ++ invocation ++ "`) exited unsuccessfully with non-zero exit code ("
    ++ exitCodeStr code ++ ")\n\tstdout:\n\t\"" ++ stdout
    ++ "\"\n\tstderr:\n\t\"" ++ stderr ++ "\""

/-- `exec_cmd` from `cmd.rs`: classify the child's exit.  Exit code 0 is
success; exit code 130 under `quiet_on_ctrl_c` is returned as an `Ok`
carrying the trimmed stdout; any other non-zero exit (or signal death)
produces the diagnostic error. -/
def exec_cmd (label : String) (cmd : Cmd) (captured_stderr : Bool)
    (quiet_on_ctrl_c : Bool) (res : ChildResult) : Except String (String × Option Int) :=
  let invocation := invocationString cmd
  let stdout_output := res.stdout
  let stderr_output := stderrSnapshot captured_stderr res.stderr
  let trimmed_stdout := strTrim stdout_output
  let exit_code := res.exitCode
  if exit_code == some 0 then
    .ok (trimmed_stdout, exit_code)
  else if quiet_on_ctrl_c && exit_code == some 130 then
    .ok (trimmed_stdout, exit_code)
  else
    .error (diagnostic label invocation exit_code stdout_output stderr_output)

/-- `exec_cmd` returns `Ok` exactly when the child exited 0, or exited 130
with `quiet_on_ctrl_c` set. -/
def execOk (quiet_on_ctrl_c : Bool) (res : ChildResult) : Bool :=
  res.exitCode == some 0 || (quiet_on_ctrl_c && res.exitCode == some 130)

/-- The executor's exit classification from the spec's data model, as
realized by `exec_cmd`'s branches. -/
inductive ExitClass where
  | success
  | quietInterrupt
  | failure
  deriving DecidableEq, Repr

def classify (quiet_on_ctrl_c : Bool) (code : Option Int) : ExitClass :=
  if code == some 0 then .success
  else if quiet_on_ctrl_c && code == some 130 then .quietInterrupt
  else .failure

/-- `get_env_var`: environment lookup with a descriptive error. -/
def get_env_var (value : Option String) (varname : String) : Except String String :=
  match value with
  | some v => .ok v
  | none => .error ("failed to find $" ++ varname ++ " in environment")

def pad2 (n : Nat) : String :=
  if n < 10 then "0" ++ natStr n else natStr n

def pad4 (n : Nat) : String :=
  if n < 10 then "000" ++ natStr n
  else if n < 100 then "00" ++ natStr n
  else if n < 1000 then "0" ++ natStr n
  else natStr n

/-- Days-since-epoch to civil (year, month, day), the standard era-based
calendar algorithm. -/
def civilFromDays (days : Nat) : Nat × Nat × Nat :=
  let z := days + 719468
  let era := z / 146097
  let doe := z % 146097
  let yoe := (doe - doe / 1460 + doe / 36524 - doe / 146096) / 365
  let y := yoe + era * 400
  let doy := doe - (365 * yoe + yoe / 4 - yoe / 100)
  let mp := (5 * doy + 2) / 153
  let d := doy - (153 * mp + 2) / 5 + 1
  let m := if mp < 10 then mp + 3 else mp - 9
  (if m ≤ 2 then y + 1 else y, m, d)

/-- Modelled from the spec: the commit-message formatter (`humantime`'s
`format_rfc3339_seconds`, an external crate whose source is not part of this
repository) renders a timestamp — given here as seconds since the Unix
epoch — in RFC 3339 seconds-precision UTC form, e.g. `2024-03-02T10:15:30Z`. -/
def format_rfc3339_seconds (secs : Nat) : String :=
  let days := secs / 86400
  let rem := secs % 86400
  let ymd := civilFromDays days
  pad4 ymd.1 ++ "-" ++ pad2 ymd.2.1 ++ "-" ++ pad2 ymd.2.2 ++ "T"
    ++ pad2 (rem / 3600) ++ ":" ++ pad2 (rem % 3600 / 60) ++ ":"
    ++ pad2 (rem % 60) ++ "Z"

/-- The configuration record from `cli.rs` (`Args`). -/
structure Args where
  base_dir : JPath
  finder : String
  lister : String
  edit_syncs : Bool
  capture_std : Bool
  shell_cmd_flag : String
  quiet_on_ctrl_c : Bool
  git_remote_name : String
  git_upstream_branch : String
  git_custom_commit_msg : Bool
  deriving DecidableEq, Repr

/-- The external world a single jot command runs against: environment
variables, the clock, the filesystem (paths with contents), the working
directory, and the behavior of each child process the workflows may spawn. -/
structure World where
  shellVar : Option String
  editorVar : Option String
  now : Nat
  fs : List (JPath × String)
  cwd : JPath
  finderRes : ChildResult
  listerRes : ChildResult
  editorRes : ChildResult
  pullRes : ChildResult
  stageRes : ChildResult
  commitRes : ChildResult
  pushRes : ChildResult
  deriving Repr

/-- The stdio adjustment applied to custom (finder/lister) invocations when
`capture_std` is off: stdin and stderr pass through to the terminal. -/
def applyCustomStdio (a : Args) (cmd : Cmd) : Cmd :=
  if !a.capture_std then
    { cmd with stdinPolicy := .inherit, stderrPolicy := .inherit }
  else cmd

/-- `exec_custom_invocation_cmd`: run a custom invocation and report, next to
its stdout, whether the caller should return early because of a quiet
Ctrl+C. -/
def exec_custom_invocation_cmd (cmd : Cmd) (a : Args) (res : ChildResult) :
    Except String (String × Bool) :=
  let cmd := applyCustomStdio a cmd
  match exec_cmd "finder" cmd a.capture_std a.quiet_on_ctrl_c res with
  | .error e => .error e
  | .ok (finder_stdout, exit_code) =>
    .ok (finder_stdout, a.quiet_on_ctrl_c && exit_code == some 130)

/-- The editor command built by `open_editor_at_path`: `$EDITOR` applied to
the given path, stdin and stdout inherited, stderr left at the capture
default. -/
def editorCmdOf (editor : String) (filepath : JPath) : Cmd :=
  { (Cmd.new editor).arg filepath.display with
      stdinPolicy := .inherit, stdoutPolicy := .inherit }

def gitPullCmd (a : Args) : Cmd :=
  (((Cmd.new "git").arg "pull").arg a.git_remote_name).arg a.git_upstream_branch

def gitAddCmd : Cmd :=
  ((Cmd.new "git").arg "add").arg "-A"

def gitCommitCmd (a : Args) (now : Nat) : Cmd :=
  let c := (Cmd.new "git").arg "commit"
  if a.git_custom_commit_msg then
    { c with stdinPolicy := .inherit, stdoutPolicy := .inherit }
  else
    (c.arg "-m").arg (format_rfc3339_seconds now)

def gitPushCmd (a : Args) : Cmd :=
  (((Cmd.new "git").arg "push").arg a.git_remote_name).arg a.git_upstream_branch

/-- anyhow's `.context(...)`: prepend context to an error message. -/
def ctxWrap (c e : String) : String := c ++ ": " ++ e

/-- `sync` from `cmd.rs`: the four git phases pull, stage, commit, push,
each run through `exec_cmd` and chained with `?`. -/
def sync (a : Args) (w : World) : Except String Unit × List Invocation :=
  let pullInv : Invocation := ⟨"pulling", gitPullCmd a⟩
  match exec_cmd "pulling" (gitPullCmd a) true a.quiet_on_ctrl_c w.pullRes with
  | .error e =>
    (.error (ctxWrap "failed to pull upstream changes, please fix the issue and run jot sync" e),
      [pullInv])
  | .ok _ =>
    let stageInv : Invocation := ⟨"staging", gitAddCmd⟩
    match exec_cmd "staging" gitAddCmd true a.quiet_on_ctrl_c w.stageRes with
    | .error e => (.error e, [pullInv, stageInv])
    | .ok _ =>
      let commitInv : Invocation := ⟨"committing", gitCommitCmd a w.now⟩
      match exec_cmd "committing" (gitCommitCmd a w.now) true a.quiet_on_ctrl_c w.commitRes with
      | .error e => (.error e, [pullInv, stageInv, commitInv])
      | .ok _ =>
        let pushInv : Invocation := ⟨"pushing", gitPushCmd a⟩
        match exec_cmd "pushing" (gitPushCmd a) true a.quiet_on_ctrl_c w.pushRes with
        | .error e =>
          (.error (ctxWrap "failed to push to upstream, please fix the issue and run jot sync" e),
            [pullInv, stageInv, commitInv, pushInv])
        | .ok _ => (.ok (), [pullInv, stageInv, commitInv, pushInv])

/-- `open_editor_at_path`: resolve `$EDITOR`, run it on the path with
stdin/stdout inherited and stderr captured, then call `sync`
unconditionally. -/
def open_editor_at_path (filepath : JPath) (a : Args) (w : World) :
    Except String Unit × List Invocation :=
  match get_env_var w.editorVar "EDITOR" with
  | .error e => (.error e, [])
  | .ok editor =>
    let editor_exec := editorCmdOf editor filepath
    let inv : Invocation := ⟨"$EDITOR", editor_exec⟩
    match exec_cmd "$EDITOR" editor_exec true a.quiet_on_ctrl_c w.editorRes with
    | .error e => (.error e, [inv])
    | .ok _ =>
      let s := sync a w
      (s.1, inv :: s.2)

/-- `relative_path_to_absolute`: join a relative candidate onto the base
directory; accept an absolute candidate only if it componentwise starts with
the base directory. -/
def relative_path_to_absolute (base_dir : JPath) (filepath : JPath) :
    Except String JPath :=
  if !filepath.absolute then
    .ok (base_dir.join filepath)
  else if !(filepath.startsWith base_dir) then
    .error ("given path must be below base_dir; " ++ filepath.display ++ " is not")
  else
    .ok filepath

/-- Whether a file exists at `p` in the modelled filesystem. -/
def fsHas (fs : List (JPath × String)) (p : JPath) : Bool :=
  fs.any (fun e => e.1 == p)

/-- `new` from `cmd.rs`: resolve the path, create a zero-byte file there if
none exists, then hand the ORIGINAL user path to `open_editor_at_path`.
Directory creation is modelled as always succeeding.  Returns the result,
the invocation trace, and the filesystem after the creation step. -/
def new (a : Args) (filepath : JPath) (w : World) :
    Except String Unit × List Invocation × List (JPath × String) :=
  match relative_path_to_absolute a.base_dir filepath with
  | .error e => (.error e, [], w.fs)
  | .ok absolute_filepath =>
    let fs :=
      if fsHas w.fs absolute_filepath then w.fs else w.fs ++ [(absolute_filepath, "")]
    let r := open_editor_at_path filepath a w
    (r.1, r.2, fs)

/-- `edit` from `cmd.rs`: run the finder through `$SHELL`, return early on a
quiet Ctrl+C, otherwise open the editor at the path printed by the finder. -/
def edit (a : Args) (w : World) : Except String Unit × List Invocation :=
  match get_env_var w.shellVar "SHELL" with
  | .error e => (.error e, [])
  | .ok shell =>
    let finder_cmd :=
      applyCustomStdio a (((Cmd.new shell).arg a.shell_cmd_flag).arg a.finder)
    let inv : Invocation := ⟨"finder", applyCustomStdio a finder_cmd⟩
    match exec_custom_invocation_cmd finder_cmd a w.finderRes with
    | .error e => (.error e, [inv])
    | .ok (_, true) => (.ok (), [inv])
    | .ok (finder_stdout, false) =>
      let filepath := parsePath finder_stdout
      let r := open_editor_at_path filepath a w
      (r.1, inv :: r.2)

/-- The listing path of `list`: the base directory when no subpath is given,
else the resolved subpath. -/
def listing_path_of (a : Args) (subpath : Option JPath) : Except String JPath :=
  match subpath with
  | none => .ok a.base_dir
  | some p => relative_path_to_absolute a.base_dir p

/-- Observable outcome of the `list` workflow: the result, the invocation
trace, and the process working directory when `list` returns. -/
structure ListOut where
  result : Except String Unit
  trace : List Invocation
  cwd : JPath
  deriving Repr

/-- `list` from `cmd.rs`: change the working directory to the listing path,
run the lister through `$SHELL` (labelled "finder" by
`exec_custom_invocation_cmd`), and change the directory back to the base
directory on the normal-completion path.  Directory changes are modelled as
always succeeding. -/
def list (a : Args) (subpath : Option JPath) (w : World) : ListOut :=
  match listing_path_of a subpath with
  | .error e => ⟨.error e, [], w.cwd⟩
  | .ok listing_path =>
    match get_env_var w.shellVar "SHELL" with
    | .error e => ⟨.error e, [], listing_path⟩
    | .ok shell =>
      let lister_cmd :=
        applyCustomStdio a (((Cmd.new shell).arg a.shell_cmd_flag).arg a.lister)
      let inv : Invocation := ⟨"finder", applyCustomStdio a lister_cmd⟩
      match exec_custom_invocation_cmd lister_cmd a w.listerRes with
      | .error e => ⟨.error e, [inv], listing_path⟩
      | .ok (_, true) => ⟨.ok (), [inv], listing_path⟩
      | .ok (_, false) => ⟨.ok (), [inv], a.base_dir⟩

/-- Substring containment, used to state what a diagnostic message names. -/
def strContains (s pat : String) : Prop :=
  ∃ a b : List Char, s.data = a ++ (pat.data ++ b)

def resultIsError : Except String Unit → Bool
  | .error _ => true
  | .ok _ => false

/-- The base directory `/repo` used by the concrete scenarios. -/
def repoDir : JPath := ⟨true, ["repo"]⟩

/-- A child run that exits 0 with empty output. -/
def okRes : ChildResult := ⟨"", "", some 0⟩

/-- Configuration of the spec's end-to-end Edit scenario, with the
sync-on-edit option (`edit_syncs`) disabled. -/
def argsC1 : Args :=
  ⟨repoDir, "echo /repo/notes/today.md", "ls", false, false, "-c", true,
    "origin", "main", false⟩

/-- World for the Edit scenario: every child invocation succeeds and the
finder prints `/repo/notes/today.md`. -/
def worldC1 : World :=
  ⟨some "bash", some "vi", 1709374530, [], repoDir,
    ⟨"/repo/notes/today.md\n", "", some 0⟩, okRes, okRes, okRes, okRes, okRes, okRes⟩

/-- Configuration for the List scenario, quiet-on-interrupt disabled. -/
def argsC3 : Args :=
  ⟨repoDir, "f", "tree", true, false, "-c", false, "origin", "main", false⟩

/-- World for the List scenario: the lister exits 1. -/
def worldC3 : World :=
  ⟨some "bash", some "vi", 0, [], repoDir,
    okRes, ⟨"", "boom", some 1⟩, okRes, okRes, okRes, okRes, okRes⟩

/-- Configuration for the Sync scenario, quiet-on-interrupt enabled. -/
def argsC4 : Args :=
  ⟨repoDir, "f", "l", true, false, "-c", true, "origin", "main", false⟩

/-- World for the Sync scenario: `git pull` exits 130, later phases exit 0. -/
def worldC4 : World :=
  ⟨some "bash", some "vi", 0, [], repoDir,
    okRes, okRes, okRes, ⟨"", "", some 130⟩, okRes, okRes, okRes⟩

/-- World where the finder is interrupted: exit 130 with partial stdout. -/
def worldC5 : World :=
  { worldC1 with finderRes := ⟨"partial", "", some 130⟩ }

/-- World where `/repo/foo/bar.md` already exists with contents. -/
def worldC8 : World :=
  { worldC1 with fs := [(⟨true, ["repo", "foo", "bar.md"]⟩, "hello")] }

/-! Helper lemmas -/

theorem exec_cmd_split (l : String) (c : Cmd) (cs q : Bool) (r : ChildResult) :
    exec_cmd l c cs q r =
      if execOk q r then .ok (strTrim r.stdout, r.exitCode)
      else .error (diagnostic l (invocationString c) r.exitCode r.stdout
        (stderrSnapshot cs r.stderr)) := by
  simp only [exec_cmd, execOk]
  by_cases h0 : r.exitCode = some 0 <;>
    by_cases h130 : (q && r.exitCode == some 130) = true <;>
      simp [h0, h130]

theorem isPrefixOf_append_self (l t : List String) : l.isPrefixOf (l ++ t) = true := by
  induction l with
  | nil => simp
  | cons a l ih => simp [List.isPrefixOf, ih]

theorem foldl_normStep_clean (ab : Bool) (l : List String) (stack : List String)
    (h : cleanComps l = true) : l.foldl (normStep ab) stack = l.reverse ++ stack := by
  induction l generalizing stack with
  | nil => simp
  | cons c l ih =>
    simp only [cleanComps, List.all_cons, Bool.and_eq_true, Bool.not_eq_true',
      beq_eq_false_iff_ne, ne_eq] at h
    simp only [List.foldl_cons, normStep, if_neg h.1.1, if_neg h.1.2,
      ih _ (by simp [cleanComps, h.2]), List.reverse_cons, List.append_assoc,
      List.cons_append, List.nil_append]

theorem normalize_clean (p : JPath) (h : cleanComps p.comps = true) :
    p.normalize = p := by
  cases p with
  | mk ab comps =>
    simp [JPath.normalize, foldl_normStep_clean ab comps [] h]


/-! Claim theorems -/

/-- C1 (code evaluated at the failing input): with the sync-on-edit option
`edit_syncs` disabled, a successful finder invocation followed by a
successful editor invocation still runs the full Sync Orchestrator — the
trace of `edit` ends with the four git phases, contradicting the claim that
Sync is not invoked.  The editor is nevertheless launched with
`/repo/notes/today.md`, as the spec's scenario says. -/
theorem edit_invokes_sync_even_when_edit_syncs_off :
    argsC1.edit_syncs = false ∧
    (edit argsC1 worldC1).1 = .ok () ∧
    (edit argsC1 worldC1).2.map Invocation.label =
      ["finder", "$EDITOR", "pulling", "staging", "committing", "pushing"] ∧
    ((edit argsC1 worldC1).2.get? 1).map (fun i => i.cmd.args) =
      some ["/repo/notes/today.md"] :=
  ⟨rfl, rfl, rfl, rfl⟩

/-- C2 counterexample: for base directory `/repo` and the relative candidate
`../etc`, the resolver succeeds and returns `/repo/../etc`, which after
resolving the `..` component is `/etc` — not a descendant of the base
directory.  This refutes the claimed containment invariant for relative
candidates with `..` components. -/
theorem resolver_dotdot_escape :
    relative_path_to_absolute repoDir ⟨false, ["..", "etc"]⟩ =
      .ok ⟨true, ["repo", "..", "etc"]⟩ ∧
    JPath.isUnder ⟨true, ["repo", "..", "etc"]⟩ repoDir = false :=
  ⟨rfl, rfl⟩

/-- C2 amended: every path the resolver returns componentwise starts with
the base directory, and when neither the base directory nor the candidate
contains `.` or `..` components the returned path is, after normalization, a
descendant of (or equal to) the base directory.  (Candidates with `..`
components can escape, as the counterexample shows.) -/
theorem resolver_syntactic_containment (b c p : JPath)
    (h : relative_path_to_absolute b c = .ok p) :
    p.startsWith b = true ∧
      (cleanComps b.comps = true → cleanComps c.comps = true →
        p.normalize.startsWith b.normalize = true) := by
  by_cases hc : c.absolute
  · rw [relative_path_to_absolute] at h
    simp only [hc, Bool.not_true, Bool.false_eq_true, if_false] at h
    by_cases hs : c.startsWith b
    · simp only [hs, Bool.not_true, Bool.false_eq_true, if_false] at h
      cases h
      refine ⟨hs, fun hb hcc => ?_⟩
      rw [normalize_clean _ hcc, normalize_clean _ hb]
      exact hs
    · simp [Bool.not_eq_true] at hs
      simp [hs] at h
  · rw [relative_path_to_absolute] at h
    simp only [Bool.not_eq_true] at hc
    simp only [hc, Bool.not_false, if_true, Except.ok.injEq] at h
    subst h
    have hj : b.join c = ⟨b.absolute, b.comps ++ c.comps⟩ := by
      simp [JPath.join, hc]
    rw [hj]
    constructor
    · simp [JPath.startsWith, isPrefixOf_append_self]
    · intro hb hcc
      have hcl : cleanComps (b.comps ++ c.comps) = true := by
        simp only [cleanComps, List.all_append, Bool.and_eq_true] at *
        exact ⟨hb, hcc⟩
      rw [show (⟨b.absolute, b.comps ++ c.comps⟩ : JPath).normalize
            = ⟨b.absolute, b.comps ++ c.comps⟩ from normalize_clean _ hcl,
          normalize_clean _ hb]
      simp [JPath.startsWith, isPrefixOf_append_self]

/-- C2 witness: the amended theorem applied to base `/repo` and candidate
`notes`. -/
theorem resolver_syntactic_containment_witness :
    JPath.startsWith ⟨true, ["repo", "notes"]⟩ repoDir = true :=
  (resolver_syntactic_containment repoDir ⟨false, ["notes"]⟩
    ⟨true, ["repo", "notes"]⟩ rfl).1



/-- C3 counterexample: a `list` run whose lister invocation exits 1 reaches
the lister invocation (the trace shows it), returns an error, and leaves the
working directory at the listing path `/repo/sub`, which differs from the
base directory — the restoration does not happen on this exit path. -/
theorem list_lister_failure_leaves_cwd :
    (list argsC3 (some ⟨false, ["sub"]⟩) worldC3).trace.map Invocation.label = ["finder"] ∧
    resultIsError (list argsC3 (some ⟨false, ["sub"]⟩) worldC3).result = true ∧
    (list argsC3 (some ⟨false, ["sub"]⟩) worldC3).cwd = ⟨true, ["repo", "sub"]⟩ ∧
    (⟨true, ["repo", "sub"]⟩ : JPath) ≠ argsC3.base_dir :=
  ⟨rfl, rfl, rfl, by decide⟩

/-- C3 amended: once `list` has reached the lister invocation, the working
directory at return is the base directory exactly when the lister invocation
completed successfully (returned `Ok` and was not cut short by a quiet
interrupt); on a lister failure or a quiet interrupt it remains the listing
path. -/
theorem list_cwd_restored_on_success (a : Args) (sp : Option JPath) (w : World)
    (lp : JPath) (sh : String)
    (h1 : listing_path_of a sp = .ok lp) (h2 : w.shellVar = some sh) :
    (list a sp w).cwd =
      (match exec_custom_invocation_cmd
          (applyCustomStdio a (((Cmd.new sh).arg a.shell_cmd_flag).arg a.lister))
          a w.listerRes with
        | .ok (_, false) => a.base_dir
        | _ => lp) := by
  simp only [list, h1, h2, get_env_var]
  cases hx : exec_custom_invocation_cmd
      (applyCustomStdio a (((Cmd.new sh).arg a.shell_cmd_flag).arg a.lister))
      a w.listerRes with
  | error e => rfl
  | ok v =>
    rcases v with ⟨out, early⟩
    cases early <;> rfl

/-- C3 witness: the amended theorem at a run whose lister exits 0 — the
working directory is restored to the base directory. -/
theorem list_cwd_restored_on_success_witness :
    (list argsC1 (some ⟨false, ["sub"]⟩) worldC1).cwd = argsC1.base_dir :=
  list_cwd_restored_on_success argsC1 (some ⟨false, ["sub"]⟩) worldC1
    ⟨true, ["repo", "sub"]⟩ "bash" rfl rfl

/-- C4 counterexample: with quiet-on-interrupt enabled and `git pull`
exiting 130, the pull phase is classified as a quiet interrupt — not a
success — yet Stage, Commit and Push all run, refuting the claim that phase
i+1 runs only if phase i succeeded. -/
theorem sync_continues_after_quiet_interrupt :
    worldC4.pullRes.exitCode = some 130 ∧
    classify argsC4.quiet_on_ctrl_c worldC4.pullRes.exitCode ≠ ExitClass.success ∧
    (sync argsC4 worldC4).2.map Invocation.label =
      ["pulling", "staging", "committing", "pushing"] :=
  ⟨rfl, by decide, rfl⟩

/-- C4 amended: the Sync Orchestrator runs the phases strictly in the order
Pull, Stage, Commit, Push, and phase i+1 runs exactly when phase i's
executor call returned without error — exit code 0, or exit code 130 with
quiet-on-interrupt enabled.  In particular no later phase ever runs after a
phase yields a Failure, but a quiet interrupt does not stop the
orchestrator. -/
theorem sync_phase_gating (a : Args) (w : World) :
    (sync a w).2.map Invocation.label =
      "pulling" ::
        (if execOk a.quiet_on_ctrl_c w.pullRes then
          "staging" ::
            (if execOk a.quiet_on_ctrl_c w.stageRes then
              "committing" ::
                (if execOk a.quiet_on_ctrl_c w.commitRes then ["pushing"] else [])
            else [])
        else []) := by
  simp only [sync, exec_cmd_split]
  by_cases h1 : execOk a.quiet_on_ctrl_c w.pullRes = true <;>
    by_cases h2 : execOk a.quiet_on_ctrl_c w.stageRes = true <;>
      by_cases h3 : execOk a.quiet_on_ctrl_c w.commitRes = true <;>
        by_cases h4 : execOk a.quiet_on_ctrl_c w.pushRes = true <;>
          simp [h1, h2, h3, h4]

/-- C5: when the finder invocation exits with code 130 and quiet-on-interrupt
is enabled, the Edit workflow returns success, its invocation trace consists
of the finder invocation only (so `$EDITOR` is never invoked, nor any sync
phase), and the outcome is independent of whatever partial stdout the finder
produced. -/
theorem edit_quiet_interrupt_aborts (a : Args) (w : World) (sh : String)
    (hq : a.quiet_on_ctrl_c = true) (hsh : w.shellVar = some sh)
    (hc : w.finderRes.exitCode = some 130) :
    (edit a w).1 = .ok () ∧
    (edit a w).2.map Invocation.label = ["finder"] ∧
    ∀ s, edit a { w with finderRes := { w.finderRes with stdout := s } } = edit a w := by
  have key : ∀ (r : ChildResult), r.exitCode = some 130 → ∀ (c : Cmd),
      exec_custom_invocation_cmd c a r = .ok (strTrim r.stdout, true) := by
    intro r hr c
    simp [exec_custom_invocation_cmd, exec_cmd_split, execOk, hq, hr]
  have h1 : ∀ (r : ChildResult), r.exitCode = some 130 →
      edit a { w with finderRes := r } =
        (.ok (), [⟨"finder",
          applyCustomStdio a
            (applyCustomStdio a (((Cmd.new sh).arg a.shell_cmd_flag).arg a.finder))⟩]) := by
    intro r hr
    simp [edit, hsh, get_env_var, key r hr]
  have hw : w = { w with finderRes := w.finderRes } := rfl
  refine ⟨?_, ?_, ?_⟩
  · rw [hw, h1 w.finderRes hc]
  · rw [hw, h1 w.finderRes hc]; rfl
  · intro s
    rw [hw, h1 w.finderRes hc, h1 { w.finderRes with stdout := s } hc]

/-- C5 witness: the theorem at a finder run exiting 130 with partial
stdout. -/
theorem edit_quiet_interrupt_aborts_witness :
    (edit argsC1 worldC5).1 = .ok () :=
  (edit_quiet_interrupt_aborts argsC1 worldC5 "bash" rfl rfl rfl).1



/-- C6 counterexample: the absolute candidate `/repo/../etc` is not a
descendant of the base directory `/repo` (it normalizes to `/etc`), yet the
resolver accepts it, because its containment check is a componentwise prefix
test that treats `..` literally. -/
theorem resolver_accepts_nondescendant_absolute :
    JPath.isUnder ⟨true, ["repo", "..", "etc"]⟩ repoDir = false ∧
    relative_path_to_absolute repoDir ⟨true, ["repo", "..", "etc"]⟩ =
      .ok ⟨true, ["repo", "..", "etc"]⟩ :=
  ⟨rfl, rfl⟩

/-- C6 amended: for every relative candidate the resolver succeeds and
returns exactly the base directory joined with the candidate; for every
absolute candidate it fails — with an error naming the offending path — if
and only if the candidate does not componentwise start with the base
directory.  (Absolute candidates that syntactically extend the base
directory are accepted even when `..` components make them escape after
normalization.) -/
theorem resolver_relative_and_absolute_cases (b c : JPath) :
    (c.absolute = false → relative_path_to_absolute b c = .ok (b.join c)) ∧
    (c.absolute = true → c.startsWith b = false →
      ∃ d, relative_path_to_absolute b c = .error d ∧ strContains d c.display) ∧
    (c.absolute = true → c.startsWith b = true →
      relative_path_to_absolute b c = .ok c) := by
  refine ⟨fun h => ?_, fun h hs => ?_, fun h hs => ?_⟩
  · simp [relative_path_to_absolute, h]
  · refine ⟨"given path must be below base_dir; " ++ c.display ++ " is not", ?_, ?_⟩
    · simp [relative_path_to_absolute, h, hs]
    · exact ⟨"given path must be below base_dir; ".data, " is not".data,
        by simp only [String.data_append, List.append_assoc]⟩
  · simp [relative_path_to_absolute, h, hs]

/-- C6 witness: the amended theorem applied to the relative candidate `a`
and to the absolute candidate `/x`. -/
theorem resolver_relative_and_absolute_cases_witness :
    (relative_path_to_absolute repoDir ⟨false, ["a"]⟩ =
      .ok (repoDir.join ⟨false, ["a"]⟩)) ∧
    (∃ d, relative_path_to_absolute repoDir ⟨true, ["x"]⟩ = .error d ∧
      strContains d (JPath.display ⟨true, ["x"]⟩)) :=
  ⟨(resolver_relative_and_absolute_cases repoDir ⟨false, ["a"]⟩).1 rfl,
   (resolver_relative_and_absolute_cases repoDir ⟨true, ["x"]⟩).2.1 rfl rfl⟩

/-- C7: whenever the Commit phase is reached (Pull and Stage returned
without error), the third invocation of the Sync Orchestrator is the commit
invocation: with custom-commit-message mode disabled it is
`git commit -m <msg>` with `<msg>` the RFC 3339 seconds-precision formatting
of the time at which the Commit phase began, stdio left at the capture
default; with the mode enabled it is a bare `git commit` with stdin and
stdout inherited.  The formatter agrees with the spec's example
`2024-03-02T10:15:30Z`. -/
theorem sync_commit_invocation_shape (a : Args) (w : World)
    (hp : execOk a.quiet_on_ctrl_c w.pullRes = true)
    (hs : execOk a.quiet_on_ctrl_c w.stageRes = true) :
    ((sync a w).2.get? 2 =
      some ⟨"committing",
        if a.git_custom_commit_msg then
          ⟨"git", ["commit"], .inherit, .inherit, .unset⟩
        else
          ⟨"git", ["commit", "-m", format_rfc3339_seconds w.now],
            .unset, .unset, .unset⟩⟩) ∧
    format_rfc3339_seconds 1709374530 = "2024-03-02T10:15:30Z" := by
  constructor
  · have hcmd : gitCommitCmd a w.now =
        (if a.git_custom_commit_msg then
          (⟨"git", ["commit"], .inherit, .inherit, .unset⟩ : Cmd)
        else
          ⟨"git", ["commit", "-m", format_rfc3339_seconds w.now],
            .unset, .unset, .unset⟩) := by
      by_cases hm : a.git_custom_commit_msg <;>
        simp [gitCommitCmd, Cmd.new, Cmd.arg, hm]
    simp only [sync, exec_cmd_split, hp, hs, if_true]
    by_cases h3 : execOk a.quiet_on_ctrl_c w.commitRes = true <;>
      by_cases h4 : execOk a.quiet_on_ctrl_c w.pushRes = true <;>
        simp [h3, h4, hcmd]
  · decide

/-- C7 witness: the theorem at a sync run with custom-commit-message mode
disabled. -/
theorem sync_commit_invocation_shape_witness :
    (sync argsC1 worldC1).2.get? 2 =
      some ⟨"committing",
        ⟨"git", ["commit", "-m", format_rfc3339_seconds worldC1.now],
          .unset, .unset, .unset⟩⟩ :=
  (sync_commit_invocation_shape argsC1 worldC1 rfl rfl).1

/-- C8: `new` leaves the filesystem unchanged when a file already exists at
the resolved path (no truncation or recreation) and otherwise adds exactly a
zero-byte file there; in either case the first invocation of the run is the
editor invocation, and the filesystem effect is the same whatever the editor
invocation later returns (the creation happens before the editor is
launched). -/
theorem new_preserves_existing_file (a : Args) (fp abs : JPath) (w : World) (ed : String)
    (hr : relative_path_to_absolute a.base_dir fp = .ok abs)
    (he : w.editorVar = some ed) :
    ((new a fp w).2.2 = if fsHas w.fs abs then w.fs else w.fs ++ [(abs, "")]) ∧
    ((new a fp w).2.1.get? 0 = some ⟨"$EDITOR", editorCmdOf ed fp⟩) ∧
    ∀ r, (new a fp { w with editorRes := r }).2.2 = (new a fp w).2.2 := by
  have htr : (open_editor_at_path fp a w).2.get? 0 =
      some ⟨"$EDITOR", editorCmdOf ed fp⟩ := by
    simp only [open_editor_at_path, he, get_env_var]
    cases hx : exec_cmd "$EDITOR" (editorCmdOf ed fp) true a.quiet_on_ctrl_c w.editorRes <;>
      simp
  refine ⟨?_, ?_, ?_⟩
  · simp [new, hr]
  · simp only [new, hr]
    exact htr
  · intro r
    simp [new, hr]

/-- C8 witness: `new` on a path whose resolved location already holds
contents leaves the filesystem unchanged. -/
theorem new_preserves_existing_file_witness :
    (new argsC1 ⟨false, ["foo", "bar.md"]⟩ worldC8).2.2 = worldC8.fs :=
  (new_preserves_existing_file argsC1 ⟨false, ["foo", "bar.md"]⟩
    ⟨true, ["repo", "foo", "bar.md"]⟩ worldC8 "vi" rfl rfl).1

/-- C9: an invocation exiting with code 130 while quiet-on-interrupt is
disabled yields an error whose diagnostic contains the exit code 130, the
invocation label, the program-and-arguments string, and the stdout and
stderr snapshots; an invocation exiting 0 yields success carrying the
trimmed stdout. -/
theorem exec_cmd_exit_classification (label : String) (cmd : Cmd) (cs q : Bool)
    (res : ChildResult) :
    (∃ d, exec_cmd label cmd cs false { res with exitCode := some 130 } = .error d ∧
      strContains d "130" ∧ strContains d label ∧
      strContains d (invocationString cmd) ∧ strContains d res.stdout ∧
      strContains d (stderrSnapshot cs res.stderr)) ∧
    exec_cmd label cmd cs q { res with exitCode := some 0 } =
      .ok (strTrim res.stdout, some 0) := by
  have h130 : exitCodeStr (some 130) = "130" := by decide
  constructor
  · refine ⟨diagnostic label (invocationString cmd) (some 130) res.stdout
      (stderrSnapshot cs res.stderr), ?_, ?_, ?_, ?_, ?_, ?_⟩
    · rw [exec_cmd_split]
      simp [execOk]
    · exact ⟨(label ++ " (`" ++ invocationString cmd
        ++ "`) exited unsuccessfully with non-zero exit code (").data,
        (")\n\tstdout:\n\t\"" ++ res.stdout ++ "\"\n\tstderr:\n\t\""
        ++ stderrSnapshot cs res.stderr ++ "\"").data,
        by simp only [diagnostic, h130, String.data_append, List.append_assoc]⟩
    · exact ⟨[], (" (`" ++ invocationString cmd
        ++ "`) exited unsuccessfully with non-zero exit code ("
        ++ exitCodeStr (some 130) ++ ")\n\tstdout:\n\t\"" ++ res.stdout
        ++ "\"\n\tstderr:\n\t\"" ++ stderrSnapshot cs res.stderr ++ "\"").data,
        by simp only [diagnostic, String.data_append, List.append_assoc,
          List.nil_append]⟩
    · exact ⟨(label ++ " (`").data,
        ("`) exited unsuccessfully with non-zero exit code ("
        ++ exitCodeStr (some 130) ++ ")\n\tstdout:\n\t\"" ++ res.stdout
        ++ "\"\n\tstderr:\n\t\"" ++ stderrSnapshot cs res.stderr ++ "\"").data,
        by simp only [diagnostic, String.data_append, List.append_assoc]⟩
    · exact ⟨(label ++ " (`" ++ invocationString cmd
        ++ "`) exited unsuccessfully with non-zero exit code ("
        ++ exitCodeStr (some 130) ++ ")\n\tstdout:\n\t\"").data,
        ("\"\n\tstderr:\n\t\"" ++ stderrSnapshot cs res.stderr ++ "\"").data,
        by simp only [diagnostic, String.data_append, List.append_assoc]⟩
    · exact ⟨(label ++ " (`" ++ invocationString cmd
        ++ "`) exited unsuccessfully with non-zero exit code ("
        ++ exitCodeStr (some 130) ++ ")\n\tstdout:\n\t\"" ++ res.stdout
        ++ "\"\n\tstderr:\n\t\"").data, "\"".data,
        by simp only [diagnostic, String.data_append, List.append_assoc]⟩
  · rw [exec_cmd_split]
    simp [execOk]

/-- C10: the argument `new` launches the editor with is the user-supplied
path exactly as given (its own rendering, so a relative path stays
relative), not the resolved absolute path, while the filesystem effect (the
existence check and the creation) happens at the resolved path. -/
theorem new_editor_gets_user_path (a : Args) (fp abs : JPath) (w : World) (ed : String)
    (hr : relative_path_to_absolute a.base_dir fp = .ok abs)
    (he : w.editorVar = some ed) :
    (((new a fp w).2.1.get? 0).map fun i => i.cmd.args) = some [fp.display] ∧
    (new a fp w).2.2 = (if fsHas w.fs abs then w.fs else w.fs ++ [(abs, "")]) := by
  have htr : (open_editor_at_path fp a w).2.get? 0 =
      some ⟨"$EDITOR", editorCmdOf ed fp⟩ := by
    simp only [open_editor_at_path, he, get_env_var]
    cases hx : exec_cmd "$EDITOR" (editorCmdOf ed fp) true a.quiet_on_ctrl_c w.editorRes <;>
      simp
  constructor
  · simp only [new, hr]
    rw [htr]
    simp [editorCmdOf, Cmd.new, Cmd.arg]
  · simp [new, hr]

/-- C10 witness: `new foo/bar.md` launches the editor with the relative
argument `foo/bar.md`. -/
theorem new_editor_gets_user_path_witness :
    (((new argsC1 ⟨false, ["foo", "bar.md"]⟩ worldC1).2.1.get? 0).map
      fun i => i.cmd.args) = some ["foo/bar.md"] :=
  (new_editor_gets_user_path argsC1 ⟨false, ["foo", "bar.md"]⟩
    ⟨true, ["repo", "foo", "bar.md"]⟩ worldC1 "vi" rfl rfl).1


end Jot
